import Mathlib

/-!
Verification of the Helix repository's token-budget, structured-output and
indexing components, shallowly embedded in Lean 4.

Strings are modelled as `List Char`.  Python's float arithmetic in
`estimate_tokens` (`int(len(text) / 3.5)`) and `truncate_to_tokens`
(`int(max_tokens * 3.5)`) is modelled with exact rational arithmetic
(`2 * n / 7` and `7 * n / 2` in natural division): `3.5` is exactly
representable, the true quotients are at distance at least `1/7` from the
nearest integer whenever they are not integral, and the IEEE rounding error
is far smaller for any realistic length, so the floors agree.
-/

/-- Python strings, modelled as lists of characters. -/
abbrev Str := List Char

/-- Python whitespace for `str.strip` and the ASCII fragment of `re`'s
`\s` class: space, tab, newline, carriage return, vertical tab, form feed. -/
def isPyWs (c : Char) : Bool :=
  c = ' ' || c = '\t' || c = '\n' || c = '\r' || c = Char.ofNat 11 || c = Char.ofNat 12

/- ── helix/llm/token_budget.py ─────────────────────────────────────────── -/

/-- The fixed truncation marker appended by `truncate_to_tokens`
(the default value of its `suffix` keyword argument), 15 characters. -/
def TRUNC_SUFFIX : Str := "\n...(truncated)".toList

/-- `estimate_tokens(text)`: `0` for empty text, else
`max(1, int(len(text) / 3.5))`, i.e. `max 1 (2 * len / 7)`. -/
def estimate_tokens (text : Str) : Nat :=
  if text.length = 0 then 0 else max 1 (2 * text.length / 7)

/-- Index of the last newline in a string, if any
(Python `str.rfind("\n")`, with `none` standing for `-1`). -/
def rfindNewline (s : Str) : Option Nat :=
  match s.reverse.findIdx? (fun c => c = '\n') with
  | some j => some (s.length - 1 - j)
  | none => none

/-- The cut body of a truncation: take `max_chars` characters and, when the
last newline of that prefix lies strictly past `max_chars // 2`, back up to
it (`truncated[:last_nl]`). -/
def truncBody (text : Str) (max_chars : Nat) : Str :=
  match rfindNewline (text.take max_chars) with
  | some i =>
      if max_chars / 2 < i then (text.take max_chars).take i else text.take max_chars
  | none => text.take max_chars

/-- `truncate_to_tokens(text, max_tokens, suffix=TRUNC_SUFFIX)`: if the text
already fits, return it unchanged; otherwise cut it at
`int(max_tokens * 3.5)` characters (backing up to a late newline) and append
the suffix. -/
def truncate_to_tokens (text : Str) (max_tokens : Nat)
    (suffix : Str := TRUNC_SUFFIX) : Str :=
  if estimate_tokens text ≤ max_tokens then text
  else truncBody text (7 * max_tokens / 2) ++ suffix

/-- `TokenBudget`: a total input-token pool plus the per-section allocation
dictionary (an association list with unique keys, in insertion order,
mirroring a Python `dict[str, int]`). -/
structure TokenBudget where
  total_input_tokens : Nat
  allocated : List (String × Nat)

/-- Python `dict` assignment `d[k] = v`: overwrite the entry in place if the
key is present, else append it. -/
def setAlloc : List (String × Nat) → String → Nat → List (String × Nat)
  | [], k, v => [(k, v)]
  | p :: rest, k, v => if p.1 = k then (k, v) :: rest else p :: setAlloc rest k v

/-- Sum of all recorded allocations (`sum(self._allocated.values())`). -/
def sumAlloc (l : List (String × Nat)) : Nat :=
  (l.map Prod.snd).sum

/-- `TokenBudget.reserve(section, tokens)`: record (overwriting) a section's
allocation. -/
def TokenBudget.reserve (b : TokenBudget) (section_ : String) (tokens : Nat) :
    TokenBudget :=
  { b with allocated := setAlloc b.allocated section_ tokens }

/-- `TokenBudget.remaining()`: `max(0, total_input_tokens - sum(allocated))`,
over the integers as in Python. -/
def TokenBudget.remaining (b : TokenBudget) : Int :=
  max 0 ((b.total_input_tokens : Int) - (sumAlloc b.allocated : Int))

/-- `TokenBudget.fit(section, text, max_tokens=None)`: compute the available
pool (Python tests `if max_tokens`, so `None` **and** `0` both fall back to
`remaining()`), truncate the text to it, and record the post-truncation
estimate under the section name.  Returns the fitted text and the updated
budget. -/
def TokenBudget.fit (b : TokenBudget) (section_ : String) (text : Str)
    (max_tokens : Option Nat := none) : Str × TokenBudget :=
  let rem : Nat := b.remaining.toNat
  let available : Nat :=
    match max_tokens with
    | some m => if m ≠ 0 then min m rem else rem
    | none => rem
  let fitted := truncate_to_tokens text available
  let actual := estimate_tokens fitted
  (fitted, { b with allocated := setAlloc b.allocated section_ actual })

/-- A sequence of `fit` calls (each with no extra cap), threaded through the
budget state. -/
def runFits (b : TokenBudget) (calls : List (String × Str)) : TokenBudget :=
  calls.foldl (fun acc c => (acc.fit c.1 c.2 none).2) b

/- ── Token-budget lemmas ───────────────────────────────────────────────── -/

/-- The cut body of a truncation never exceeds the character budget. -/
lemma truncBody_length_le (text : Str) (m : Nat) : (truncBody text m).length ≤ m := by
  unfold truncBody
  split
  · split <;> simp only [List.length_take] <;> omega
  · simp only [List.length_take]
    omega

/-- A truncated text estimates to at most four tokens over budget: the body
is at most `⌊7n/2⌋` characters and the marker adds 15, so the estimate is at
most `⌊(7n + 30)/7⌋ = n + 4`. -/
lemma estimate_truncate_le (text : Str) (n : Nat) :
    estimate_tokens (truncate_to_tokens text n) ≤ n + 4 := by
  unfold truncate_to_tokens
  split
  · next h => omega
  · next h =>
    have hb := truncBody_length_le text (7 * n / 2)
    have hs : TRUNC_SUFFIX.length = 15 := rfl
    simp only [estimate_tokens, List.length_append, hs]
    split
    · omega
    · exact max_le (by omega) (by omega)

/-- Overwriting one key of the allocation dictionary raises the sum by at
most the new value. -/
lemma sumAlloc_setAlloc_le (l : List (String × Nat)) (k : String) (v : Nat) :
    sumAlloc (setAlloc l k v) ≤ sumAlloc l + v := by
  induction l with
  | nil => simp [setAlloc, sumAlloc]
  | cons p rest ih =>
    simp only [setAlloc]
    split
    · simp only [sumAlloc, List.map_cons, List.sum_cons]
      omega
    · simp only [sumAlloc, List.map_cons, List.sum_cons] at ih ⊢
      omega

/-- `remaining()` as a natural number is the truncated subtraction. -/
lemma remaining_toNat (b : TokenBudget) :
    b.remaining.toNat = b.total_input_tokens - sumAlloc b.allocated := by
  simp only [TokenBudget.remaining]
  omega

/-- One uncapped `fit` call keeps the allocation sum within four tokens of
the pool (or of the current sum, when that already exceeds the pool). -/
lemma fit_sum_step (b : TokenBudget) (s : String) (t : Str) :
    sumAlloc ((b.fit s t none).2.allocated) ≤
      max b.total_input_tokens (sumAlloc b.allocated) + 4 := by
  have h1 := sumAlloc_setAlloc_le b.allocated s
    (estimate_tokens (truncate_to_tokens t b.remaining.toNat))
  have h2 := estimate_truncate_le t b.remaining.toNat
  have h3 := remaining_toNat b
  simp only [TokenBudget.fit]
  omega

/-- `fit` never changes the total pool. -/
lemma fit_total (b : TokenBudget) (s : String) (t : Str) (mt : Option Nat) :
    ((b.fit s t mt).2).total_input_tokens = b.total_input_tokens := rfl

/-- Invariant for a sequence of uncapped `fit` calls: each call overshoots
the pool by at most 4 tokens. -/
lemma runFits_sum_le (calls : List (String × Str)) :
    ∀ b : TokenBudget,
      sumAlloc ((runFits b calls).allocated) ≤
        max b.total_input_tokens (sumAlloc b.allocated) + 4 * calls.length := by
  induction calls with
  | nil =>
    intro b
    simp only [runFits, List.foldl_nil, List.length_nil]
    omega
  | cons c cs ih =>
    intro b
    have hstep := fit_sum_step b c.1 c.2
    have hih := ih (b.fit c.1 c.2 none).2
    have htot := fit_total b c.1 c.2 none
    simp only [runFits, List.foldl_cons, List.length_cons] at hih ⊢
    omega

/- ── Claims about the token budget ─────────────────────────────────────── -/

/-- C1 (amended): `truncate_to_tokens(text, N)` yields a result whose
estimate is at most `N + 4` — the fixed 15-character truncation marker is
appended after the cut and can push the estimate up to four tokens past the
budget — and when `estimate_tokens(text) ≤ N` the text is returned
unchanged. -/
theorem truncate_budget_bound_and_identity (text : Str) (N : Nat) :
    estimate_tokens (truncate_to_tokens text N) ≤ N + 4 ∧
      (estimate_tokens text ≤ N → truncate_to_tokens text N = text) := by
  refine ⟨estimate_truncate_le text N, fun h => ?_⟩
  unfold truncate_to_tokens
  simp [h]

/-- C1 counterexample: eight characters truncated to a one-token budget
estimate to five tokens, so `estimate_tokens(result) ≤ N` fails. -/
theorem truncate_budget_bound_counterexample :
    ¬ estimate_tokens (truncate_to_tokens (List.replicate 8 'a') 1) ≤ 1 := by
  decide

/-- C1 witness: a two-character text within a five-token budget is returned
unchanged. -/
theorem truncate_budget_bound_witness :
    estimate_tokens "hi".toList ≤ 5 ∧ truncate_to_tokens "hi".toList 5 = "hi".toList :=
  ⟨by decide, (truncate_budget_bound_and_identity "hi".toList 5).2 (by decide)⟩

/-- C2 (amended): `remaining()` is never negative (it is clamped with
`max(0, ·)`), and over any sequence of uncapped `fit` calls with distinct
section names against a fresh budget, the sum of recorded allocations
exceeds `total_input_tokens` by at most 4 tokens per call (the truncation
marker's overshoot); the unamended bound `sum ≤ total_input_tokens` fails. -/
theorem fit_sequence_budget (T : Nat) (calls : List (String × Str))
    (hnd : (calls.map Prod.fst).Nodup) :
    (∀ b : TokenBudget, 0 ≤ b.remaining) ∧
      sumAlloc ((runFits (TokenBudget.mk T []) calls).allocated) ≤
        T + 4 * calls.length := by
  refine ⟨fun b => le_max_left 0 _, ?_⟩
  have h := runFits_sum_le calls (TokenBudget.mk T [])
  simpa [sumAlloc] using h

/-- C2 counterexample: one `fit` of a 39-character line into a 10-token
budget records 14 tokens, exceeding the total pool. -/
theorem fit_sequence_budget_counterexample :
    ¬ sumAlloc ((runFits (TokenBudget.mk 10 [])
        [("a", List.replicate 39 'a')]).allocated) ≤ 10 := by
  decide

/-- C2 witness: one short `fit` into a 100-token budget stays within the
amended bound. -/
theorem fit_sequence_budget_witness :
    sumAlloc ((runFits (TokenBudget.mk 100 []) [("a", "hi".toList)]).allocated) ≤
      100 + 4 * 1 :=
  (fit_sequence_budget 100 [("a", "hi".toList)] (by decide)).2

/-- C7: reserving the same section twice overwrites — after
`reserve(s, a); reserve(s, b)` the dictionary holds exactly `(s, b)` and
`remaining()` is `max(0, total − b)`. -/
theorem reserve_overwrite (T : Nat) (s : String) (a b : Nat) (hab : a ≠ b) :
    (((TokenBudget.mk T []).reserve s a).reserve s b).allocated = [(s, b)] ∧
      (((TokenBudget.mk T []).reserve s a).reserve s b).remaining =
        max 0 ((T : Int) - (b : Int)) := by
  constructor
  · simp [TokenBudget.reserve, setAlloc]
  · simp [TokenBudget.reserve, TokenBudget.remaining, setAlloc, sumAlloc]

/-- C7 witness: `reserve("x", 1); reserve("x", 2)` on a 5-token budget
leaves allocation 2 and remaining 3. -/
theorem reserve_overwrite_witness :
    (((TokenBudget.mk 5 []).reserve "x" 1).reserve "x" 2).allocated = [("x", 2)] ∧
      (((TokenBudget.mk 5 []).reserve "x" 1).reserve "x" 2).remaining =
        max 0 ((5 : Int) - (2 : Int)) :=
  reserve_overwrite 5 "x" 1 2 (by decide)

/-- C9: `estimate_tokens` is monotone in length, at least 1 on any
non-empty string, and 0 on the empty string. -/
theorem estimate_tokens_monotone_pos_zero (s t : Str) :
    (s.length ≤ t.length → estimate_tokens s ≤ estimate_tokens t) ∧
      (s ≠ [] → 1 ≤ estimate_tokens s) ∧ estimate_tokens ([] : Str) = 0 := by
  refine ⟨fun hle => ?_, fun hne => ?_, rfl⟩
  · simp only [estimate_tokens]
    split <;> split <;> omega
  · have h : s.length ≠ 0 := fun h0 => hne (List.length_eq_zero.mp h0)
    simp only [estimate_tokens, if_neg h]
    exact le_max_left 1 _

/-- C9 witness: evaluated at `"a"` and `"ab"`. -/
theorem estimate_tokens_monotone_witness :
    estimate_tokens ['a'] ≤ estimate_tokens ['a', 'b'] ∧ 1 ≤ estimate_tokens ['a'] :=
  ⟨(estimate_tokens_monotone_pos_zero ['a'] ['a', 'b']).1 (by decide),
    (estimate_tokens_monotone_pos_zero ['a'] ['a', 'b']).2.1 (by decide)⟩

/-- C10: `fit` with `max_tokens = 0` behaves exactly like `fit` with no cap,
because the source tests the cap for truthiness (`if max_tokens`) rather
than for `None`, and `0` is falsy. -/
theorem fit_zero_cap_ignored (b : TokenBudget) (s : String) (t : Str) :
    b.fit s t (some 0) = b.fit s t none := by
  simp [TokenBudget.fit]

/- ── JSON values and a model of Python's json.loads ────────────────────── -/

/-- Characters kept out of literals so that delimiter handling stays
uniform: backquote, braces, double quote, backslash. -/
def BQ : Char := Char.ofNat 96

/-- Opening brace character. -/
def LB : Char := Char.ofNat 123

/-- Closing brace character. -/
def RB : Char := Char.ofNat 125

/-- Double-quote character. -/
def QT : Char := Char.ofNat 34

/-- Backslash character. -/
def BSL : Char := Char.ofNat 92

/-- JSON values as returned by `json.loads`.  Numbers keep their literal
text (the agents only ever compare parsed values structurally); objects are
association lists in document order. -/
inductive Json where
  | null : Json
  | bool : Bool → Json
  | num : List Char → Json
  | str : List Char → Json
  | arr : List Json → Json
  | obj : List (Str × Json) → Json

/-- JSON whitespace (`json.decoder` skips exactly space, tab, newline,
carriage return). -/
def isJsonWs (c : Char) : Bool :=
  c = ' ' || c = '\t' || c = '\n' || c = '\r'

/-- Skip JSON whitespace. -/
def skipJsonWs (s : Str) : Str := s.dropWhile isJsonWs

/-- Simple JSON string escapes. -/
def escChar (e : Char) : Option Char :=
  if e = QT then some QT
  else if e = BSL then some BSL
  else if e = '/' then some '/'
  else if e = 'b' then some (Char.ofNat 8)
  else if e = 'f' then some (Char.ofNat 12)
  else if e = 'n' then some '\n'
  else if e = 'r' then some '\r'
  else if e = 't' then some '\t'
  else none

/-- Value of a hexadecimal digit. -/
def hexVal (c : Char) : Option Nat :=
  if c.isDigit then some (c.toNat - 48)
  else if 'a' ≤ c ∧ c ≤ 'f' then some (c.toNat - 87)
  else if 'A' ≤ c ∧ c ≤ 'F' then some (c.toNat - 55)
  else none

/-- Body of a JSON string after the opening quote: plain characters, the
simple escapes, and `\uXXXX` (decoded as a single code unit; surrogate
pairs are not recombined — no input in this development uses them).  Raw
control characters are rejected as in `json.loads` strict mode. -/
def parseStrBody : Str → Option (Str × Str)
  | [] => none
  | c :: rest =>
    if c = QT then some ([], rest)
    else if c = BSL then
      match rest with
      | [] => none
      | e :: rest2 =>
        if e = 'u' then
          match rest2 with
          | h1 :: h2 :: h3 :: h4 :: rest3 =>
            match hexVal h1, hexVal h2, hexVal h3, hexVal h4 with
            | some v1, some v2, some v3, some v4 =>
              match parseStrBody rest3 with
              | some (cs, r) =>
                  some (Char.ofNat (((v1 * 16 + v2) * 16 + v3) * 16 + v4) :: cs, r)
              | none => none
            | _, _, _, _ => none
          | _ => none
        else
          match escChar e with
          | some ec =>
            match parseStrBody rest2 with
            | some (cs, r) => some (ec :: cs, r)
            | none => none
          | none => none
    else if c.toNat < 32 then none
    else
      match parseStrBody rest with
      | some (cs, r) => some (c :: cs, r)
      | none => none

/-- Optional fraction part of a JSON number. -/
def parseFracPart (s : Str) : Option (Str × Str) :=
  match s with
  | '.' :: r =>
    let ds := r.takeWhile Char.isDigit
    if ds.isEmpty then none else some ('.' :: ds, r.drop ds.length)
  | _ => some ([], s)

/-- Optional exponent part of a JSON number. -/
def parseExpPart (s : Str) : Option (Str × Str) :=
  match s with
  | c :: r =>
    if c = 'e' ∨ c = 'E' then
      let signAndRest : Str × Str :=
        match r with
        | c2 :: rr => if c2 = '+' ∨ c2 = '-' then ([c2], rr) else ([], r)
        | [] => ([], r)
      let ds := signAndRest.2.takeWhile Char.isDigit
      if ds.isEmpty then none
      else some (c :: signAndRest.1 ++ ds, signAndRest.2.drop ds.length)
    else some ([], s)
  | [] => some ([], [])

/-- JSON number literal: optional minus, `0` or a non-zero-led digit run,
optional fraction, optional exponent.  Returns the raw literal text. -/
def parseNumber (s : Str) : Option (Str × Str) :=
  let negAndRest : Str × Str :=
    match s with
    | c :: r => if c = '-' then ([c], r) else ([], s)
    | [] => ([], [])
  match negAndRest.2 with
  | [] => none
  | c :: r =>
    if c = '0' then
      match parseFracPart r with
      | some (fr, r2) =>
        match parseExpPart r2 with
        | some (ex, r3) => some (negAndRest.1 ++ c :: (fr ++ ex), r3)
        | none => none
      | none => none
    else if c.isDigit then
      let ds := r.takeWhile Char.isDigit
      match parseFracPart (r.drop ds.length) with
      | some (fr, r2) =>
        match parseExpPart r2 with
        | some (ex, r3) => some (negAndRest.1 ++ c :: (ds ++ fr ++ ex), r3)
        | none => none
      | none => none
    else none

mutual

/-- Recursive-descent JSON value parser (fuel-bounded; the fuel passed by
`json_loads` is ample for any input). -/
def parseValue : Nat → Str → Option (Json × Str)
  | 0, _ => none
  | fuel + 1, s =>
    match skipJsonWs s with
    | [] => none
    | c :: rest =>
      if c = LB then
        match skipJsonWs rest with
        | [] => none
        | c2 :: r2 =>
          if c2 = RB then some (Json.obj [], r2)
          else
            match parseMembers fuel (c2 :: r2) with
            | some (ms, r) => some (Json.obj ms, r)
            | none => none
      else if c = '[' then
        match skipJsonWs rest with
        | [] => none
        | c2 :: r2 =>
          if c2 = ']' then some (Json.arr [], r2)
          else
            match parseElems fuel (c2 :: r2) with
            | some (xs, r) => some (Json.arr xs, r)
            | none => none
      else if c = QT then
        match parseStrBody rest with
        | some (cs, r) => some (Json.str cs, r)
        | none => none
      else if c = 't' then
        match rest with
        | 'r' :: 'u' :: 'e' :: r => some (Json.bool true, r)
        | _ => none
      else if c = 'f' then
        match rest with
        | 'a' :: 'l' :: 's' :: 'e' :: r => some (Json.bool false, r)
        | _ => none
      else if c = 'n' then
        match rest with
        | 'u' :: 'l' :: 'l' :: r => some (Json.null, r)
        | _ => none
      else
        match parseNumber (c :: rest) with
        | some (raw, r) => some (Json.num raw, r)
        | none => none

/-- Members of a JSON object, positioned at a key's opening quote. -/
def parseMembers : Nat → Str → Option (List (Str × Json) × Str)
  | 0, _ => none
  | fuel + 1, s =>
    match s with
    | [] => none
    | c :: rest =>
      if c = QT then
        match parseStrBody rest with
        | some (key, r1) =>
          match skipJsonWs r1 with
          | ':' :: r2 =>
            match parseValue fuel r2 with
            | some (v, r3) =>
              match skipJsonWs r3 with
              | ',' :: r4 =>
                match parseMembers fuel (skipJsonWs r4) with
                | some (ms, r) => some ((key, v) :: ms, r)
                | none => none
              | c5 :: r4 => if c5 = RB then some ([(key, v)], r4) else none
              | [] => none
            | none => none
          | _ => none
        | none => none
      else none

/-- Elements of a JSON array, positioned at the first element. -/
def parseElems : Nat → Str → Option (List Json × Str)
  | 0, _ => none
  | fuel + 1, s =>
    match parseValue fuel s with
    | some (v, r1) =>
      match skipJsonWs r1 with
      | ',' :: r2 =>
        match parseElems fuel r2 with
        | some (xs, r) => some (v :: xs, r)
        | none => none
      | c :: r2 => if c = ']' then some ([v], r2) else none
      | [] => none
    | none => none

end

/-- Model of Python `json.loads`: parse one value and require only trailing
whitespace after it. -/
def json_loads (s : Str) : Option Json :=
  match parseValue (2 * s.length + 2) s with
  | some (v, rest) => if (skipJsonWs rest).isEmpty then some v else none
  | none => none

/- ── helix/agents/base.py : parse_json and call_llm_structured ─────────── -/

/-- One left-to-right pass of `re.sub(r"```(?:json)?\s*", "", text)`:
each occurrence of three backquotes, optionally followed by `json`, plus any
following whitespace run, is deleted; scanning resumes after the match.
Fuel-bounded (every step consumes at least one character, so `s.length`
suffices). -/
def stripFencesAux : Nat → Str → Str
  | 0, s => s
  | fuel + 1, s =>
    match s with
    | [] => []
    | c :: rest =>
      if c = BQ then
        match rest with
        | c2 :: c3 :: r =>
          if c2 = BQ ∧ c3 = BQ then
            let r2 : Str :=
              match r with
              | 'j' :: 's' :: 'o' :: 'n' :: rr => rr
              | _ => r
            stripFencesAux fuel (r2.dropWhile isPyWs)
          else c :: stripFencesAux fuel rest
        | _ => c :: stripFencesAux fuel rest
      else c :: stripFencesAux fuel rest

/-- `re.sub(r"```(?:json)?\s*", "", text)`. -/
def stripFences (s : Str) : Str := stripFencesAux s.length s

/-- Python `str.strip()` (whitespace from both ends). -/
def pyStrip (s : Str) : Str :=
  ((s.dropWhile isPyWs).reverse.dropWhile isPyWs).reverse

/-- Python `str.rstrip("`")`. -/
def rstripBQ (s : Str) : Str :=
  (s.reverse.dropWhile (fun c => c = BQ)).reverse

/-- The shared fence-cleaning pipeline:
`re.sub(...).strip().rstrip("`")`. -/
def cleanFences (text : Str) : Str := rstripBQ (pyStrip (stripFences text))

/-- Brace-matching scan of `parse_json`'s strategy 2: starting at the first
`{`, track nesting depth and report the index one past the matching `}`.
`none` models the Python loop ending with `end` still at `start` (the slice
is then empty). -/
def braceScan : Str → Nat → Nat → Option Nat
  | [], _, _ => none
  | c :: rest, i, depth =>
    if c = LB then braceScan rest (i + 1) (depth + 1)
    else if c = RB then
      if depth = 1 then some (i + 1) else braceScan rest (i + 1) (depth - 1)
    else braceScan rest (i + 1) depth

/-- Strategy 1 of `parse_json`: strip fences and parse the cleaned text. -/
def strat1 (text : Str) : Option Json := json_loads (cleanFences text)

/-- Strategy 2 of `parse_json`: take the first brace-balanced `{...}`
substring of the original text and parse it (an unterminated scan leaves an
empty slice, which fails to parse, as in the source). -/
def strat2 (text : Str) : Option Json :=
  match text.findIdx? (fun c => c = LB) with
  | none => none
  | some start =>
    match braceScan (text.drop start) 0 0 with
    | some e => json_loads ((text.drop start).take e)
    | none => json_loads []

/-- The error-tagged map returned when both strategies fail:
`{"error": "Failed to parse response", "raw": text[:500]}`. -/
def errorMap (text : Str) : Json :=
  Json.obj [("error".toList, Json.str "Failed to parse response".toList),
            ("raw".toList, Json.str (text.take 500))]

/-- `BaseAgent.parse_json`: strategy 1, then strategy 2, then the error
map — never raising. -/
def parse_json (text : Str) : Json :=
  match strat1 text with
  | some v => v
  | none =>
    match strat2 text with
    | some v => v
    | none => errorMap text

/-- Python's `"error" in result` on the parsed value, for the dictionary
case that `call_llm_structured` relies on (non-dictionary values have no
`"error"` key). -/
def hasError : Json → Bool
  | Json.obj fields => fields.any (fun p => p.1 = "error".toList)
  | _ => false

/-- The repair loop of `call_llm_structured`, against a stub model mapping
the call index to its raw response: `attempt` is the number of calls already
made, the second argument the repair calls still allowed, the third the last
parse result.  Returns the final result and the total number of model
calls. -/
def structuredRetry (stub : Nat → Str) : Nat → Nat → Json → Json × Nat
  | attempt, 0, last => (last, attempt)
  | attempt, r + 1, _ =>
    let result := parse_json (stub attempt)
    if hasError result then structuredRetry stub (attempt + 1) r result
    else (result, attempt + 1)

/-- `BaseAgent.call_llm_structured` against a stub model: one initial call,
then up to `retries` repair calls while parsing keeps failing; returns the
final parse result and the number of model calls issued. -/
def call_llm_structured (stub : Nat → Str) (retries : Nat) : Json × Nat :=
  let result := parse_json (stub 0)
  if hasError result then structuredRetry stub 1 retries result
  else (result, 1)

/- ── Lemmas about the repair loop ──────────────────────────────────────── -/

/-- Unfolding one step of the repair loop. -/
lemma structuredRetry_step (stub : Nat → Str) (attempt r : Nat) (last : Json) :
    structuredRetry stub attempt (r + 1) last =
      if hasError (parse_json (stub attempt)) then
        structuredRetry stub (attempt + 1) r (parse_json (stub attempt))
      else (parse_json (stub attempt), attempt + 1) := rfl

/-- If every remaining repair call fails to parse, the loop exhausts its
budget and returns the last failed parse, having made `r + 1` further
calls. -/
lemma structuredRetry_exhaust (stub : Nat → Str) :
    ∀ (r attempt : Nat) (last : Json),
      (∀ j, attempt ≤ j → j < attempt + (r + 1) → hasError (parse_json (stub j)) = true) →
      structuredRetry stub attempt (r + 1) last =
        (parse_json (stub (attempt + r)), attempt + r + 1) := by
  intro r
  induction r with
  | zero =>
    intro attempt last hfail
    have h0 := hfail attempt (le_refl _) (by omega)
    rw [structuredRetry_step, h0]
    simp [structuredRetry]
  | succ r ih =>
    intro attempt last hfail
    have h0 := hfail attempt (le_refl _) (by omega)
    rw [structuredRetry_step, h0]
    simp only [if_true]
    rw [ih (attempt + 1) (parse_json (stub attempt))
      (fun j h1 h2 => hfail j (by omega) (by omega))]
    have e : attempt + 1 + r = attempt + (r + 1) := by omega
    rw [e]

/-- If the calls at indices `attempt, …, attempt + k − 1` fail and the one
at `attempt + k` succeeds, with at least `k + 1` repair calls allowed, the
loop stops at the first success. -/
lemma structuredRetry_success (stub : Nat → Str) :
    ∀ (k attempt r : Nat) (last : Json), k < r →
      (∀ j, attempt ≤ j → j < attempt + k → hasError (parse_json (stub j)) = true) →
      hasError (parse_json (stub (attempt + k))) = false →
      structuredRetry stub attempt r last =
        (parse_json (stub (attempt + k)), attempt + k + 1) := by
  intro k
  induction k with
  | zero =>
    intro attempt r last hkr hfail hsucc
    obtain ⟨r', rfl⟩ : ∃ r', r = r' + 1 := ⟨r - 1, by omega⟩
    simp only [Nat.add_zero] at hsucc ⊢
    rw [structuredRetry_step, hsucc]
    simp
  | succ k ih =>
    intro attempt r last hkr hfail hsucc
    obtain ⟨r', rfl⟩ : ∃ r', r = r' + 1 := ⟨r - 1, by omega⟩
    have h0 : hasError (parse_json (stub attempt)) = true :=
      hfail attempt (le_refl _) (by omega)
    rw [structuredRetry_step, h0]
    simp only [if_true]
    have e : attempt + 1 + k = attempt + (k + 1) := by omega
    rw [ih (attempt + 1) r' (parse_json (stub attempt)) (by omega)
      (fun j h1 h2 => hfail j (by omega) (by omega)) (by rw [e]; exact hsucc), e]

/- ── Claims about structured calls and JSON parsing ────────────────────── -/

/-- C3: against a stub model whose calls `1..N−1` (indices `0..N−2`) parse
with an error and whose call `N` (index `N−1`) parses cleanly, the
structured call with `retries = N−1` returns that clean parse after exactly
`N` model calls; with any `retries < N−1` it makes `retries + 1` calls and
returns the error-tagged parse of the last call. -/
theorem structured_retry_protocol (N : Nat) (stub : Nat → Str) (hN : 1 ≤ N)
    (hfail : ∀ i, i < N - 1 → hasError (parse_json (stub i)) = true)
    (hsucc : hasError (parse_json (stub (N - 1))) = false) :
    call_llm_structured stub (N - 1) = (parse_json (stub (N - 1)), N) ∧
      ∀ r, r < N - 1 →
        call_llm_structured stub r = (parse_json (stub r), r + 1) ∧
          hasError (parse_json (stub r)) = true := by
  constructor
  · by_cases h1 : N = 1
    · subst h1
      simp only [Nat.sub_self] at hsucc ⊢
      simp only [call_llm_structured, hsucc]
      simp
    · have h2 : 2 ≤ N := by omega
      have h0 : hasError (parse_json (stub 0)) = true := hfail 0 (by omega)
      simp only [call_llm_structured, h0, if_true]
      have e : 1 + (N - 2) = N - 1 := by omega
      rw [structuredRetry_success stub (N - 2) 1 (N - 1) (parse_json (stub 0))
        (by omega) (fun j hj1 hj2 => hfail j (by omega)) (by rw [e]; exact hsucc), e]
      have e2 : N - 1 + 1 = N := by omega
      rw [e2]
  · intro r hr
    refine ⟨?_, hfail r hr⟩
    have h0 : hasError (parse_json (stub 0)) = true := hfail 0 (by omega)
    simp only [call_llm_structured, h0, if_true]
    by_cases hr0 : r = 0
    · subst hr0
      simp [structuredRetry]
    · obtain ⟨r', rfl⟩ : ∃ r', r = r' + 1 := ⟨r - 1, by omega⟩
      rw [structuredRetry_exhaust stub r' 1 (parse_json (stub 0))
        (fun j h1 h2 => hfail j (by omega))]
      have e : 1 + r' = r' + 1 := by omega
      rw [e]

/-- A stub model failing on its first call and returning valid JSON on its
second. -/
def stubOnceFailing : Nat → Str :=
  fun n => if n = 0 then "not json".toList else "\x7b\"k\":1\x7d".toList

/-- C3 witness: with `N = 2` and one retry, the structured call returns the
second call's parse after exactly two model calls. -/
theorem structured_retry_protocol_witness :
    call_llm_structured stubOnceFailing 1 = (parse_json (stubOnceFailing 1), 2) :=
  (structured_retry_protocol 2 stubOnceFailing (by decide)
    (fun i hi => by
      have h : i = 0 := by omega
      rw [h]
      decide)
    (by decide)).1

/-- The fenced input `` ```json\n{"k":1}\n``` ``. -/
def fencedInput : Str := "```json\n\x7b\"k\":1\x7d\n```".toList

/-- The input `{"k":1} trailing prose`. -/
def trailingInput : Str := "\x7b\"k\":1\x7d trailing prose".toList

/-- C4: `parse_json` recovers `{"k": 1}` from the fenced input (strategy 1)
and from the trailing-prose input (strategy 2); and whenever both strategies
fail it returns — without raising — the error map carrying an `"error"` key
and a `"raw"` key holding the first 500 characters of the original text. -/
theorem parse_json_strategies :
    parse_json fencedInput = Json.obj [("k".toList, Json.num ['1'])] ∧
      parse_json trailingInput = Json.obj [("k".toList, Json.num ['1'])] ∧
      ∀ text : Str, strat1 text = none → strat2 text = none →
        parse_json text = errorMap text ∧ hasError (errorMap text) = true ∧
          errorMap text = Json.obj
            [("error".toList, Json.str "Failed to parse response".toList),
             ("raw".toList, Json.str (text.take 500))] := by
  refine ⟨rfl, rfl, fun text h1 h2 => ⟨?_, rfl, rfl⟩⟩
  simp only [parse_json, h1, h2]

/-- C4 witness: on the garbage input `hello`, both strategies fail and the
error map is returned. -/
theorem parse_json_strategies_witness :
    parse_json "hello".toList = errorMap "hello".toList :=
  (parse_json_strategies.2.2 "hello".toList rfl rfl).1

/- ── helix/rag/indexer.py : regex entity fallback ──────────────────────── -/

/-- Word characters of `re`'s `\w` (ASCII fragment; every input considered
here is ASCII). -/
def isWordChar (c : Char) : Bool := c.isAlphanum || c = '_'

/-- One title-cased word `[A-Z][a-z]+` with its maximal lowercase run. -/
def parseWord (s : Str) : Option (Str × Str) :=
  match s with
  | [] => none
  | c :: rest =>
    if c.isUpper then
      let lows := rest.takeWhile Char.isLower
      if lows.isEmpty then none else some (c :: lows, rest.drop lows.length)
    else none

/-- Greedy continuation of a title-cased chain: repeatedly a whitespace run
(`\s+`) followed by another title-cased word.  Returns the
(whitespace, word) pairs and the rest of the input. -/
def parseChainAux : Nat → Str → List (Str × Str) × Str
  | 0, s => ([], s)
  | fuel + 1, s =>
    let ws := s.takeWhile isPyWs
    if ws.isEmpty then ([], s)
    else
      match parseWord (s.drop ws.length) with
      | some (w, rest) =>
        let pr := parseChainAux fuel rest
        ((ws, w) :: pr.1, pr.2)
      | none => ([], s)

/-- Concatenate (whitespace, word) pairs back into text. -/
def concatPairs : List (Str × Str) → Str
  | [] => []
  | p :: rest => p.1 ++ p.2 ++ concatPairs rest

/-- Attempt of `\b([A-Z][a-z]+(?:\s+[A-Z][a-z]+)+)\b` at the current
position (the leading boundary is checked by the caller): parse the greedy
chain; if the character after it is a word character the trailing `\b`
fails and backtracking drops the final word (the new match then ends before
whitespace, which restores the boundary — shrinking a lowercase run can
never help, as the following character would again be a word character);
at least two words must remain. -/
def matchAt (s : Str) : Option (Str × Str) :=
  match parseWord s with
  | none => none
  | some (w0, rest) =>
    let pr := parseChainAux rest.length rest
    let bad : Bool :=
      match pr.2 with
      | c :: _ => isWordChar c
      | [] => false
    if bad then
      match pr.1.reverse with
      | [] => none
      | lastP :: revInit =>
        let kept := revInit.reverse
        if 2 ≤ kept.length + 1 then
          some (w0 ++ concatPairs kept, lastP.1 ++ lastP.2 ++ pr.2)
        else none
    else
      if 2 ≤ pr.1.length + 1 then some (w0 ++ concatPairs pr.1, pr.2) else none

/-- `re.findall` scan: try a match wherever the previous character is not a
word character; on success continue after the match (whose final character
is a lowercase letter, hence a word character), otherwise advance one
character. -/
def scanMatches : Nat → Bool → Str → List Str
  | 0, _, _ => []
  | fuel + 1, prevW, s =>
    match s with
    | [] => []
    | c :: rest =>
      if prevW then scanMatches fuel (isWordChar c) rest
      else
        match matchAt s with
        | some (text, restAfter) => text :: scanMatches fuel true restAfter
        | none => scanMatches fuel (isWordChar c) rest

/-- All matches of the title-cased-phrase pattern, in scan order. -/
def findAllMatches (content : Str) : List Str :=
  scanMatches content.length false content

/-- Deduplicate keeping first occurrences.  This models Python's
`set(re.findall(...))`, whose iteration order is unspecified; the fixed
order is immaterial to the properties proved here. -/
def firstDedup : List Str → List Str → List Str
  | [], _ => []
  | x :: rest, seen =>
    if x ∈ seen then firstDedup rest seen else x :: firstDedup rest (x :: seen)

/-- The fixed leading stop-word set of `_regex_entity_fallback`.  No element
is a prefix of another, so at most one can match a given name and the
unspecified iteration order of the Python set is immaterial. -/
def SKIP_WORDS : List Str :=
  ["The ", "This ", "That ", "These ", "Those ", "When ", "Where ", "With ",
   "From ", "About ", "After ", "Before "].map String.toList

/-- Does `p` lead the string `s`? -/
def leadsWith : Str → Str → Bool
  | [], _ => true
  | _ :: _, [] => false
  | c :: ps, d :: ns => c = d && leadsWith ps ns

/-- Strip the first matching stop word from the front of a name (Python
breaks after the first hit). -/
def stripSkipWord (name : Str) : Str :=
  match SKIP_WORDS.find? (fun p => leadsWith p name) with
  | some p => name.drop p.length
  | none => name

/-- The selection loop of `_regex_entity_fallback`: strip the stop word,
keep non-empty names not seen before, and stop once 20 have been
collected. -/
def pickNames : List Str → List Str → Nat → List Str
  | [], _, _ => []
  | m :: rest, seen, rem =>
    match rem with
    | 0 => []
    | rem' + 1 =>
      let name := stripSkipWord m
      if name ≠ [] ∧ name ∉ seen then name :: pickNames rest (name :: seen) rem'
      else pickNames rest seen (rem' + 1)

/-- One fallback entity dictionary `{"name": ..., "type": "concept"}`. -/
def mkEntity (name : Str) : Json :=
  Json.obj [("name".toList, Json.str name),
            ("type".toList, Json.str "concept".toList)]

/-- `_regex_entity_fallback(content)`: title-cased multi-word phrases,
deduplicated, the first 30 processed, stop words stripped, deduplicated
again by resulting name, capped at 20 entities. -/
def _regex_entity_fallback (content : Str) : List Json :=
  (pickNames ((firstDedup (findAllMatches content) []).take 30) [] 20).map mkEntity

/-- The `"name"` field of an entity dictionary. -/
def entityNameOf (j : Json) : Str :=
  match j with
  | Json.obj fields =>
    match fields.find? (fun p => p.1 = "name".toList) with
    | some (_, Json.str nm) => nm
    | _ => []
  | _ => []

/- ── helix/rag/indexer.py : extraction and indexing pipeline ───────────── -/

/-- Python-level failures: `attrError` stands for the attribute/type errors
raised by shape-mismatched values, `external` for exceptions raised by the
model, vector or graph backends (tagged to tell instances apart). -/
inductive PyErr where
  | attrError : PyErr
  | external : Nat → PyErr

/-- The I/O dependencies of `index_document`, as oracles: the chunker is
the external text splitter; `embed`, `vectorAdd` and `addDocNode` are the
primary-pipeline stores (their payloads do not influence the returned
summary); `complete` is the entity-extraction model call on the excerpt;
`addEntity name etype doc_id` is `graph.add_entity`. -/
structure IndexEnv where
  is_slm : Bool
  split : Str → List Str
  embed : List Str → Except PyErr Unit
  vectorAdd : Except PyErr Unit
  addDocNode : Except PyErr Unit
  complete : Str → Except PyErr Str
  addEntity : Str → Json → Str → Except PyErr Unit

/-- `_parse_json_response(text)`: strip fences exactly as `parse_json`
strategy 1 does, parse, and return `{}` on a decode error — never
raising. -/
def _parse_json_response (text : Str) : Json :=
  match json_loads (cleanFences text) with
  | some v => v
  | none => Json.obj []

/-- Python `value.get(key, default)`: a key lookup on a dictionary, an
attribute error on anything else. -/
def jsonGetD (j : Json) (key : Str) (dflt : Json) : Except PyErr Json :=
  match j with
  | Json.obj fields =>
    match fields.find? (fun p => p.1 = key) with
    | some p => Except.ok p.2
    | none => Except.ok dflt
  | _ => Except.error PyErr.attrError

/-- Python iteration over the `entities` value: a list yields its elements,
a string its one-character substrings; other values are not iterable. -/
def asIterList (j : Json) : Except PyErr (List Json) :=
  match j with
  | Json.arr xs => Except.ok xs
  | Json.str s => Except.ok (s.map (fun c => Json.str [c]))
  | _ => Except.error PyErr.attrError

/-- The storage loop of `_extract_entities`: for each entity dictionary,
`name = entity.get("name", "").strip()`, `etype = entity.get("type",
"concept")`, and `graph.add_entity(name, etype, doc_id)` when the name is
non-empty.  This loop sits outside the `try` block, so every failure it
raises propagates. -/
def storeEntities (env : IndexEnv) (doc_id : Str) : List Json → Except PyErr Unit
  | [] => Except.ok ()
  | e :: rest =>
    match jsonGetD e "name".toList (Json.str []) with
    | Except.error err => Except.error err
    | Except.ok nameJ =>
      match nameJ with
      | Json.str s =>
        match jsonGetD e "type".toList (Json.str "concept".toList) with
        | Except.error err => Except.error err
        | Except.ok etype =>
          if pyStrip s ≠ [] then
            match env.addEntity (pyStrip s) etype doc_id with
            | Except.error err => Except.error err
            | Except.ok _ => storeEntities env doc_id rest
          else storeEntities env doc_id rest
      | _ => Except.error PyErr.attrError

/-- `_extract_entities(content, doc_id)`: call the model on the (possibly
truncated) excerpt and read `data.get("entities", [])`, all inside the
`try`; on any exception there, fall back to the regex heuristic.  A decode
failure raises nothing — `_parse_json_response` returns `{}`, so the `try`
succeeds with the empty default.  The storage loop then runs outside the
`try` and its failures propagate. -/
def _extract_entities (env : IndexEnv) (content : Str) (doc_id : Str) :
    Except PyErr (List Json) :=
  let excerpt := content.take (if env.is_slm then 2000 else 4000)
  let attempt : Except PyErr Json :=
    match env.complete excerpt with
    | Except.error err => Except.error err
    | Except.ok resp =>
        jsonGetD (_parse_json_response resp) "entities".toList (Json.arr [])
  match attempt with
  | Except.ok entsJ =>
    match asIterList entsJ with
    | Except.error err => Except.error err
    | Except.ok ents =>
      match storeEntities env doc_id ents with
      | Except.error err => Except.error err
      | Except.ok _ => Except.ok ents
  | Except.error _ =>
    match storeEntities env doc_id (_regex_entity_fallback content) with
    | Except.error err => Except.error err
    | Except.ok _ => Except.ok (_regex_entity_fallback content)

/-- `index_document`: chunk, embed, store vectors, create the document
node, extract entities, and return the summary
`(doc_id, number of chunks, number of entities)`.  Any failure in any step
propagates. -/
def index_document (env : IndexEnv) (doc_id project_id title doc_type : Str)
    (content : Str) : Except PyErr (Str × Nat × Nat) :=
  let chunks := env.split content
  match env.embed chunks with
  | Except.error err => Except.error err
  | Except.ok _ =>
    match env.vectorAdd with
    | Except.error err => Except.error err
    | Except.ok _ =>
      match env.addDocNode with
      | Except.error err => Except.error err
      | Except.ok _ =>
        match _extract_entities env content doc_id with
        | Except.error err => Except.error err
        | Except.ok entities => Except.ok (doc_id, chunks.length, entities.length)

/- ── Lemmas about the fallback and the extraction pipeline ─────────────── -/

/-- The selection loop never emits a name twice, and never emits a name
already seen. -/
lemma pickNames_nodup_aux :
    ∀ (l seen : List Str) (rem : Nat),
      (pickNames l seen rem).Nodup ∧ ∀ x ∈ pickNames l seen rem, x ∉ seen := by
  intro l
  induction l with
  | nil =>
    intro seen rem
    simp [pickNames]
  | cons m rest ih =>
    intro seen rem
    cases rem with
    | zero => simp [pickNames]
    | succ rem' =>
      simp only [pickNames]
      split
      · next hcond =>
        obtain ⟨hnd, hmem⟩ := ih (stripSkipWord m :: seen) rem'
        constructor
        · rw [List.nodup_cons]
          exact ⟨fun hx => (hmem _ hx) (List.mem_cons_self _ _), hnd⟩
        · intro x hx
          rcases List.mem_cons.mp hx with h | h
          · rw [h]
            exact hcond.2
          · exact fun hxs => (hmem _ h) (List.mem_cons_of_mem _ hxs)
      · exact ih seen (rem' + 1)

/-- Storing one fallback entity reduces to the non-empty-name check and the
graph call (the dictionary lookups all succeed on the fixed shape). -/
lemma storeEntities_cons_mkEntity (env : IndexEnv) (d nm : Str) (rest : List Json) :
    storeEntities env d (mkEntity nm :: rest) =
      if pyStrip nm ≠ [] then
        match env.addEntity (pyStrip nm) (Json.str "concept".toList) d with
        | Except.error err => Except.error err
        | Except.ok _ => storeEntities env d rest
      else storeEntities env d rest := rfl

/-- When every graph upsert succeeds, storing a list of fallback entities
succeeds. -/
lemma storeEntities_map_mkEntity_ok (env : IndexEnv) (d : Str)
    (hgraph : ∀ n t dd, env.addEntity n t dd = Except.ok ()) :
    ∀ names : List Str, storeEntities env d (names.map mkEntity) = Except.ok () := by
  intro names
  induction names with
  | nil => rfl
  | cons nm rest ih =>
    rw [List.map_cons, storeEntities_cons_mkEntity]
    by_cases h : pyStrip nm = []
    · simp [h, ih]
    · simp [h, hgraph, ih]

/-- A failing model call lands in the regex fallback, whose storage then
succeeds when the graph does. -/
lemma extract_call_error (env : IndexEnv) (content d : Str) (err : PyErr)
    (hcall : ∀ s, env.complete s = Except.error err)
    (hgraph : ∀ n t dd, env.addEntity n t dd = Except.ok ()) :
    _extract_entities env content d = Except.ok (_regex_entity_fallback content) := by
  simp only [_extract_entities, hcall, _regex_entity_fallback]
  rw [storeEntities_map_mkEntity_ok env d hgraph]

/-- A model call that succeeds with an undecodable body produces the empty
entity list: `_parse_json_response` swallows the decode error and returns
`{}`, whose `entities` default is `[]`. -/
lemma extract_parse_failure (env : IndexEnv) (content d resp : Str)
    (hcall : ∀ s, env.complete s = Except.ok resp)
    (hparse : json_loads (cleanFences resp) = none) :
    _extract_entities env content d = Except.ok [] := by
  simp only [_extract_entities, hcall, _parse_json_response, hparse]
  rfl

/- ── Claims about the extraction pipeline ──────────────────────────────── -/

/-- The running example sentence from the repository's tests. -/
def sampleSentence : Str := "The Privacy Team approved the Data Privacy Review.".toList

/-- C8: the regex fallback on the sample sentence yields exactly the
entities `Privacy Team` (leading `The` stripped) and `Data Privacy Review`,
in scan order; and on every input the emitted entity names are pairwise
distinct, so a repeated phrase appears at most once. -/
theorem regex_fallback_sample_and_dedup :
    _regex_entity_fallback sampleSentence =
      [mkEntity "Privacy Team".toList, mkEntity "Data Privacy Review".toList] ∧
      ∀ content : Str, ((_regex_entity_fallback content).map entityNameOf).Nodup := by
  refine ⟨rfl, fun content => ?_⟩
  simp only [_regex_entity_fallback, List.map_map]
  have he : entityNameOf ∘ mkEntity = id := funext fun nm => rfl
  rw [he, List.map_id]
  exact (pickNames_nodup_aux _ [] 20).1

/-- C5 (amended): when the model call raises, `_extract_entities` returns
exactly the regex fallback (graph upserts succeeding); but when the call
succeeds and its body fails to decode as JSON, the result is the empty
list — not the fallback — because `_parse_json_response` returns `{}`
instead of raising. -/
theorem extract_entities_failure_paths :
    (∀ (env : IndexEnv) (content d : Str) (err : PyErr),
        (∀ s, env.complete s = Except.error err) →
        (∀ n t dd, env.addEntity n t dd = Except.ok ()) →
        _extract_entities env content d = Except.ok (_regex_entity_fallback content)) ∧
      ∀ (env : IndexEnv) (content d resp : Str),
        (∀ s, env.complete s = Except.ok resp) →
        json_loads (cleanFences resp) = none →
        _extract_entities env content d = Except.ok [] :=
  ⟨fun env content d err hcall hgraph => extract_call_error env content d err hcall hgraph,
   fun env content d resp hcall hparse => extract_parse_failure env content d resp hcall hparse⟩

/-- An environment whose model call succeeds but returns an undecodable
body, with a healthy graph. -/
def envParseFailure : IndexEnv where
  is_slm := false
  split := fun s => [s]
  embed := fun _ => Except.ok ()
  vectorAdd := Except.ok ()
  addDocNode := Except.ok ()
  complete := fun _ => Except.ok "garbage".toList
  addEntity := fun _ _ _ => Except.ok ()

/-- C5 counterexample: on a parse failure the extraction returns `[]`, not
the (non-empty) regex fallback of the sample sentence. -/
theorem extract_entities_fallback_counterexample :
    ¬ _extract_entities envParseFailure sampleSentence "doc".toList =
        Except.ok (_regex_entity_fallback sampleSentence) := by
  intro h
  have h1 : _extract_entities envParseFailure sampleSentence "doc".toList =
      Except.ok [] := rfl
  have h2 : _regex_entity_fallback sampleSentence =
      mkEntity "Privacy Team".toList :: [mkEntity "Data Privacy Review".toList] := rfl
  rw [h1, h2] at h
  injection h with h3
  exact List.noConfusion h3

/-- An environment whose model call raises, with a healthy graph. -/
def envCallFailure : IndexEnv where
  is_slm := false
  split := fun s => [s]
  embed := fun _ => Except.ok ()
  vectorAdd := Except.ok ()
  addDocNode := Except.ok ()
  complete := fun _ => Except.error (PyErr.external 7)
  addEntity := fun _ _ _ => Except.ok ()

/-- C5 witness: with a raising model call, the extraction returns exactly
the regex fallback of the sample sentence. -/
theorem extract_entities_failure_paths_witness :
    _extract_entities envCallFailure sampleSentence "doc".toList =
      Except.ok (_regex_entity_fallback sampleSentence) :=
  extract_entities_failure_paths.1 envCallFailure sampleSentence "doc".toList
    (PyErr.external 7) (fun s => rfl) (fun n t dd => rfl)

/-- C6 (amended): a failure of the enrichment **model call** is swallowed —
with the primary pipeline and the graph upserts healthy, `index_document`
still completes with its summary even though the call raised; but a failure
of the **graph upsert** of an extracted entity propagates and fails
`index_document` (see the counterexample). -/
theorem index_model_failure_completes (env : IndexEnv)
    (d p t dt content : Str) (err : PyErr)
    (hembed : env.embed (env.split content) = Except.ok ())
    (hvec : env.vectorAdd = Except.ok ())
    (hnode : env.addDocNode = Except.ok ())
    (hcall : ∀ s, env.complete s = Except.error err)
    (hgraph : ∀ n t2 dd, env.addEntity n t2 dd = Except.ok ()) :
    index_document env d p t dt content =
      Except.ok (d, (env.split content).length,
        (_regex_entity_fallback content).length) := by
  have hx := extract_call_error env content d err hcall hgraph
  simp only [index_document, hembed, hvec, hnode, hx]

/-- An environment whose model call returns a well-formed entity but whose
graph upsert fails. -/
def envGraphFailure : IndexEnv where
  is_slm := false
  split := fun s => [s]
  embed := fun _ => Except.ok ()
  vectorAdd := Except.ok ()
  addDocNode := Except.ok ()
  complete := fun _ =>
    Except.ok "\x7b\"entities\":[\x7b\"name\":\"Payments Api\",\"type\":\"api\"\x7d]\x7d".toList
  addEntity := fun _ _ _ => Except.error (PyErr.external 3)

/-- C6 counterexample: with a failing `graph.add_entity`, `index_document`
does not complete — the enrichment failure propagates (the entity loop sits
outside the `try` block). -/
theorem index_enrichment_counterexample :
    ¬ ∃ summary, index_document envGraphFailure "doc".toList "proj".toList
        "t".toList "prd".toList "Some Content here".toList = Except.ok summary := by
  rintro ⟨s, h⟩
  have h1 : index_document envGraphFailure "doc".toList "proj".toList "t".toList
      "prd".toList "Some Content here".toList = Except.error (PyErr.external 3) := rfl
  rw [h1] at h
  exact Except.noConfusion h

/-- An environment identical to `envCallFailure`, used to witness the
indexing claim. -/
def envCallFailureIdx : IndexEnv where
  is_slm := false
  split := fun s => [s]
  embed := fun _ => Except.ok ()
  vectorAdd := Except.ok ()
  addDocNode := Except.ok ()
  complete := fun _ => Except.error (PyErr.external 9)
  addEntity := fun _ _ _ => Except.ok ()

/-- C6 witness: with a raising model call and healthy stores, indexing the
sample sentence completes with its summary. -/
theorem index_model_failure_completes_witness :
    index_document envCallFailureIdx "doc".toList "proj".toList "t".toList
        "prd".toList sampleSentence =
      Except.ok ("doc".toList, (envCallFailureIdx.split sampleSentence).length,
        (_regex_entity_fallback sampleSentence).length) :=
  index_model_failure_completes envCallFailureIdx "doc".toList "proj".toList
    "t".toList "prd".toList sampleSentence (PyErr.external 9) rfl rfl rfl
    (fun s => rfl) (fun n t2 dd => rfl)
